import Mathlib

/-!
Shallow embedding of the task-management API
(`taskapp/serializers.py`, `taskapp/services.py`, `taskapp/views.py`).

The persistent store is modelled as a `List Task`.  The Django model
(`taskapp/models.py`) is not part of the sources; its field set, defaults
and constraints are modelled from the spec (§3 data model) where noted.
Timestamps are `Nat`s supplied by the caller (`now` parameters) in place of
the database clock.
-/

namespace Taskapp

/-- Task priority. Modelled from the spec: `priority ∈ {low, medium, high}`
(choices on the missing Django model; the serializer validates membership). -/
inductive Priority where
  | low
  | medium
  | high
deriving DecidableEq, Repr

/-- Task status. Modelled from the spec:
`status ∈ {pending, in_progress, completed}`. -/
inductive Status where
  | pending
  | in_progress
  | completed
deriving DecidableEq, Repr

def Priority.toStr : Priority → String
  | .low => "low"
  | .medium => "medium"
  | .high => "high"

def Status.toStr : Status → String
  | .pending => "pending"
  | .in_progress => "in_progress"
  | .completed => "completed"

def priorityOfString : String → Option Priority
  | "low" => some .low
  | "medium" => some .medium
  | "high" => some .high
  | _ => none

def statusOfString : String → Option Status
  | "pending" => some .pending
  | "in_progress" => some .in_progress
  | "completed" => some .completed
  | _ => none

/-- The persisted Task record. Modelled from the spec (§3): the Django model
file is not among the sources; fields and defaults follow the spec table,
which the model tests (`test_task_default_values`) corroborate. -/
structure Task where
  id : Nat
  title : String
  description : String
  priority : Priority
  status : Status
  created_at : Nat
  updated_at : Nat
  due_date : Option Nat
deriving DecidableEq, Repr

/-- Incoming request data for a write: each field is `some v` when the key is
supplied in the request body and `none` when absent.  `id`, `created_at` and
`updated_at` are read-only in `TaskSerializer.Meta` so supplied values for
them are dropped before validation; they have no slot here. -/
structure TaskData where
  title : Option String := none
  description : Option String := none
  priority : Option String := none
  status : Option String := none
  due_date : Option (Option Nat) := none
deriving DecidableEq, Repr

/-- Python string truthiness / `str.strip` whitespace set (ASCII part). -/
def isPySpace (c : Char) : Bool :=
  c = ' ' || c = '\t' || c = '\n' || c = '\r' || c = '\x0b' || c = '\x0c'

/-- `str.strip()`: drop leading and trailing whitespace characters. -/
def pyStripList (l : List Char) : List Char :=
  (l.dropWhile isPySpace).rdropWhile isPySpace

def pyStrip (s : String) : String :=
  ⟨pyStripList s.data⟩

/-- `TaskSerializer.validate_title`:
`if not value or not value.strip(): raise ...; return value.strip()`. -/
def validate_title (value : String) : Except String String :=
  if value = "" ∨ pyStrip value = "" then
    .error "Title cannot be empty"
  else
    .ok (pyStrip value)

/-- `valid_priorities` in `TaskSerializer.validate_priority`. -/
def validPriorities : List String := ["low", "medium", "high"]

/-- `valid_statuses` in `TaskSerializer.validate_status`. -/
def validStatuses : List String := ["pending", "in_progress", "completed"]

/-- `TaskSerializer.validate_priority`: rejects values outside
`['low', 'medium', 'high']`; accepted values are returned (converted here to
the `Priority` enum, which carries exactly those three values). -/
def validate_priority (value : String) : Except String Priority :=
  match priorityOfString value with
  | some p => .ok p
  | none => .error "Priority must be one of: ['low', 'medium', 'high']"

/-- `TaskSerializer.validate_status`: rejects values outside
`['pending', 'in_progress', 'completed']`. -/
def validate_status (value : String) : Except String Status :=
  match statusOfString value with
  | some s => .ok s
  | none => .error "Status must be one of: ['pending', 'in_progress', 'completed']"

/-- Title field pipeline: the blank check and the max-length check
(`max 200 characters`, modelled from the spec since the model file with
`max_length=200` is not in the sources) run before `validate_title`. -/
def titleField (value : String) : Except String String :=
  if value = "" then
    .error "This field may not be blank."
  else if value.length > 200 then
    .error "Ensure this field has no more than 200 characters."
  else
    validate_title value

/-- Field values validated and normalised by the serializer. -/
structure ValidatedData where
  title : Option String := none
  description : Option String := none
  priority : Option Priority := none
  status : Option Status := none
  due_date : Option (Option Nat) := none
deriving DecidableEq, Repr

/-- One field's validation outcome: a supplied value goes through the field
validator; an absent one is skipped on a partial write and is a `required`
error otherwise. -/
def fieldRes (partialFlag : Bool) (fld : Option α) (valf : α → Except String β) :
    Except String (Option β) :=
  match fld with
  | some v => (valf v).map some
  | none => if partialFlag then .ok none else .error "This field is required."

/-- The title field's validation outcome. -/
def titleRes (partialFlag : Bool) (d : TaskData) : Except String (Option String) :=
  fieldRes partialFlag d.title titleField

/-- The priority field's validation outcome. -/
def priorityRes (partialFlag : Bool) (d : TaskData) : Except String (Option Priority) :=
  fieldRes partialFlag d.priority validate_priority

/-- The status field's validation outcome. -/
def statusRes (partialFlag : Bool) (d : TaskData) : Except String (Option Status) :=
  fieldRes partialFlag d.status validate_status

/-- `TaskSerializer.is_valid`: runs every field validator and collects the
errors keyed by field name (`serializer.errors`).  With `partialFlag = false`
(create / PUT) the required fields `title`, `priority`, `status` must be
supplied — modelled from the spec (§3: `title` required, `priority`/`status`
required on create; §4.1: a full update must supply all required fields) as
the model file fixing requiredness is not in the sources.  With
`partialFlag = true` (PATCH / service-layer update) only supplied fields are
validated.  Field validation reads nothing but the supplied value, exactly as
`validate_title` / `validate_priority` / `validate_status` do. -/
def runSerializer (partialFlag : Bool) (d : TaskData) :
    Except (List (String × String)) ValidatedData :=
  match titleRes partialFlag d, priorityRes partialFlag d, statusRes partialFlag d with
  | .ok t, .ok p, .ok s =>
    .ok { title := t, description := d.description, priority := p, status := s,
          due_date := d.due_date }
  | t, p, s =>
    .error ((match t with | .error e => [("title", e)] | .ok _ => []) ++
            (match p with | .error e => [("priority", e)] | .ok _ => []) ++
            (match s with | .error e => [("status", e)] | .ok _ => []))

/-- `serializer.save()` on an existing instance: supplied validated fields
overwrite the instance's, unsupplied fields keep their prior values; `id` and
`created_at` are untouched (read-only), `updated_at` is refreshed (model
`auto_now`, per spec §3). -/
def serializerSave (inst : Task) (vd : ValidatedData) (now : Nat) : Task :=
  { inst with
    title := vd.title.getD inst.title
    description := vd.description.getD inst.description
    priority := vd.priority.getD inst.priority
    status := vd.status.getD inst.status
    due_date := vd.due_date.getD inst.due_date
    updated_at := now }

/-- `serializer.save()` with no instance (create): the store assigns `id`,
`created_at = updated_at = now`; absent optional fields take the model
defaults (spec §3: description `''`, priority `medium`, status `pending`,
due_date absent). -/
def buildTask (newId now : Nat) (vd : ValidatedData) : Task :=
  { id := newId
    title := vd.title.getD ""
    description := vd.description.getD ""
    priority := vd.priority.getD .medium
    status := vd.status.getD .pending
    created_at := now
    updated_at := now
    due_date := vd.due_date.getD none }

/-- `Task.objects.get(id=...)` / DRF `get_object`: the record with the given
primary key, if any. -/
def find_task (store : List Task) (tid : Nat) : Option Task :=
  store.find? (fun t => t.id = tid)

/-- `.order_by('-created_at')`: descending on `created_at`. -/
def createdDesc (a b : Task) : Prop :=
  b.created_at ≤ a.created_at

instance : DecidableRel createdDesc :=
  fun a b => Nat.decLe b.created_at a.created_at

instance : IsTotal Task createdDesc :=
  ⟨fun a b => (Nat.le_total a.created_at b.created_at).symm⟩

instance : IsTrans Task createdDesc :=
  ⟨fun _ _ _ hab hbc => Nat.le_trans hbc hab⟩

def sortByCreatedAtDesc (ts : List Task) : List Task :=
  ts.insertionSort createdDesc

/-- Failure modes of the service layer: `Task.DoesNotExist` converted to a
`ValidationError` message, or serializer validation errors. -/
inductive ServiceErr where
  | notFound (tid : Nat)
  | invalid (errs : List (String × String))
deriving DecidableEq, Repr

/-- `TaskService.update_task`: fetch by id (error if absent), then
`TaskSerializer(task, data=data, partial=True)` and save.  Returns the
updated task and the store after the write. -/
def update_task (store : List Task) (task_id : Nat) (data : TaskData)
    (now : Nat) : Except ServiceErr (Task × List Task) :=
  match find_task store task_id with
  | none => .error (.notFound task_id)
  | some task =>
    match runSerializer true data with
    | .error errs => .error (.invalid errs)
    | .ok vd =>
      let updated := serializerSave task vd now
      .ok (updated, store.map (fun t => if t.id = task_id then updated else t))

/-- `TaskService.delete_task`: fetch by id (error if absent), then delete. -/
def delete_task (store : List Task) (task_id : Nat) :
    Except ServiceErr (List Task) :=
  match find_task store task_id with
  | none => .error (.notFound task_id)
  | some _ => .ok (store.filter (fun t => ¬ t.id = task_id))

/-- `TaskService.get_high_priority_tasks`:
`filter(priority='high', status__in=['pending', 'in_progress'])`
then `order_by('-created_at')`. -/
def get_high_priority_tasks (store : List Task) : List Task :=
  sortByCreatedAtDesc (store.filter
    (fun t => t.priority = Priority.high ∧
      t.status ∈ [Status.pending, Status.in_progress]))

/-- `TaskService.bulk_update_status`: `filter(id__in=task_ids).update(...)`,
returning the number of rows touched. -/
def bulk_update_status (store : List Task) (task_ids : List Nat)
    (new_status : Status) (now : Nat) : Nat × List Task :=
  ((store.filter (fun t => task_ids.contains t.id)).length,
   store.map (fun t =>
     if task_ids.contains t.id then { t with status := new_status, updated_at := now }
     else t))

/-- The dictionary returned by `TaskService.get_task_statistics`. -/
structure TaskStats where
  total : Nat
  pending : Nat
  in_progress : Nat
  completed : Nat
  high_priority : Nat
deriving DecidableEq, Repr

/-- `TaskService.get_task_statistics`: one aggregate with five counts. -/
def get_task_statistics (store : List Task) : TaskStats :=
  { total := store.length
    pending := store.countP (fun t => t.status = Status.pending)
    in_progress := store.countP (fun t => t.status = Status.in_progress)
    completed := store.countP (fun t => t.status = Status.completed)
    high_priority := store.countP (fun t => t.priority = Priority.high) }

/-- The per-record body of the loop in `TaskService.bulk_update_tasks`:
`TaskSerializer(task, data=update_data, partial=True)` validated and saved. -/
def updateIfTarget (task_ids : List Nat) (d : TaskData) (now : Nat)
    (t : Task) : Task :=
  if task_ids.contains t.id then
    match runSerializer true d with
    | .ok vd => serializerSave t vd now
    | .error _ => t
  else t

/-- `TaskService.bulk_update_tasks` (decorated `@transaction.atomic`): iterate
over `filter(id__in=task_ids)`, validating `update_data` against each record
with `raise_exception=True` — the first failure aborts the batch.  On success
returns the list of updated tasks and the store with every targeted record
updated; on failure the transaction rolls back, which the caller models by
keeping the pre-call store. -/
def bulk_update_tasks (store : List Task) (task_ids : List Nat)
    (update_data : TaskData) (now : Nat) :
    Except (List (String × String)) (List Task × List Task) :=
  match (store.filter (fun t => task_ids.contains t.id)).mapM
      (fun t => (runSerializer true update_data).map
        (fun vd => serializerSave t vd now)) with
  | .error e => .error e
  | .ok updated_tasks =>
    .ok (updated_tasks, store.map (updateIfTarget task_ids update_data now))

/-- A JSON field value as it appears in a response body. -/
inductive FieldVal where
  | nat : Nat → FieldVal
  | str : String → FieldVal
  | optNat : Option Nat → FieldVal
  | raw : TaskData → FieldVal
  | objList : List (List (String × FieldVal)) → FieldVal

/-- A JSON object body: ordered key/value pairs. -/
abbrev Obj := List (String × FieldVal)

/-- The field list of `TaskSerializer.Meta.fields`. -/
def taskFields : List String :=
  ["id", "title", "description", "priority", "status",
   "created_at", "updated_at", "due_date"]

/-- `TaskSerializer(task).data`: the serialized record, keys exactly
`Meta.fields` in order. -/
def serializeTask (t : Task) : Obj :=
  [("id", .nat t.id), ("title", .str t.title),
   ("description", .str t.description), ("priority", .str t.priority.toStr),
   ("status", .str t.status.toStr), ("created_at", .nat t.created_at),
   ("updated_at", .nat t.updated_at), ("due_date", .optNat t.due_date)]

/-- One `if <filter>: queryset = queryset.filter(<field>=<value>)` step.
`request.GET.get` yields `none` when the parameter is absent; Python
truthiness makes the empty string skip the filter as well. -/
def applyFilter (fval : Option String) (get : Task → String)
    (ts : List Task) : List Task :=
  match fval with
  | none => ts
  | some s => if s = "" then ts else ts.filter (fun t => get t = s)

/-- `TaskViewSet.get_queryset`: filter by the `status` and `priority` query
parameters when truthy, then `order_by('-created_at')`. -/
def get_queryset (store : List Task) (statusF priorityF : Option String) :
    List Task :=
  sortByCreatedAtDesc
    (applyFilter priorityF (fun t => t.priority.toStr)
      (applyFilter statusF (fun t => t.status.toStr) store))

/-- `TaskViewSet.list`: starts from `get_queryset()` and applies the same two
query-parameter filters a second time, then serializes.  Returned here as the
record sequence; `serializeTask` maps it to the body. -/
def list_view (store : List Task) (statusF priorityF : Option String) :
    List Task :=
  applyFilter priorityF (fun t => t.priority.toStr)
    (applyFilter statusF (fun t => t.status.toStr)
      (get_queryset store statusF priorityF))

/-- DRF's 404 body. -/
def notFoundBody : Obj := [("detail", .str "Not found.")]

/-- `TaskViewSet.retrieve`: `get_object()` (404 when absent) then serialize. -/
def retrieve_view (store : List Task) (tid : Nat) : Nat × Option Obj :=
  match find_task store tid with
  | none => (404, some notFoundBody)
  | some t => (200, some (serializeTask t))

/-- `TaskViewSet.create`: validate, save, 201 with the serialized record; on
failure 400 with `{errors, received_data, message}`.  The store assigns
`newId` and stamps `now`. -/
def create_view (store : List Task) (d : TaskData) (newId now : Nat) :
    Nat × Option Obj × List Task :=
  match runSerializer false d with
  | .error errs =>
    (400, some [("errors", .objList [errs.map (fun e => (e.1, FieldVal.str e.2))]),
                ("received_data", .raw d),
                ("message", .str "Validation failed")], store)
  | .ok vd =>
    let t := buildTask newId now vd
    (201, some (serializeTask t), store ++ [t])

/-- `TaskViewSet.update` (PUT, `partialFlag = false`) and
`TaskViewSet.partial_update` (PATCH, `partialFlag = true`): `get_object()`
(404 when absent), validate, save, 200 with the serialized record; 400 with
`serializer.errors` on invalid data. -/
def update_view (store : List Task) (tid : Nat) (d : TaskData) (now : Nat)
    (partialFlag : Bool) : Nat × Option Obj × List Task :=
  match find_task store tid with
  | none => (404, some notFoundBody, store)
  | some t =>
    match runSerializer partialFlag d with
    | .error errs =>
      (400, some (errs.map (fun e => (e.1, FieldVal.str e.2))), store)
    | .ok vd =>
      let updated := serializerSave t vd now
      (200, some (serializeTask updated),
       store.map (fun u => if u.id = tid then updated else u))

/-- `TaskViewSet.destroy`: `get_object()` (404 when absent), delete, then
`Response({'message': 'Task deleted successfully'}, status=204)`. -/
def destroy_view (store : List Task) (tid : Nat) :
    Nat × Option Obj × List Task :=
  match find_task store tid with
  | none => (404, some notFoundBody, store)
  | some _ =>
    (204, some [("message", .str "Task deleted successfully")],
     store.filter (fun t => ¬ t.id = tid))

/-- `TaskViewSet.bulk_update`: `task_ids = request.data.get('task_ids', [])`,
the remaining body keys are the update data; delegates to
`TaskService.bulk_update_tasks` and answers 200 with
`{updated_count, tasks}`, or 400 on any exception — the atomic transaction
having rolled back, the store is unchanged on failure. -/
def bulk_update_view (store : List Task) (task_ids : Option (List Nat))
    (update_data : TaskData) (now : Nat) : Nat × Option Obj × List Task :=
  match bulk_update_tasks store (task_ids.getD []) update_data now with
  | .error errs =>
    (400, some [("error", .str (String.intercalate "; " (errs.map (fun e => e.2))))],
     store)
  | .ok (updated_tasks, store2) =>
    (200, some [("updated_count", .nat updated_tasks.length),
                ("tasks", .objList (updated_tasks.map serializeTask))], store2)

/-- `simple_create_task`: `TaskService.create_task(request.data)`, answering
201 with a literal dict of the eight task fields plus a `message` key; any
exception yields 400 with `{error, received_data, message}`. -/
def simple_create_task (store : List Task) (d : TaskData) (newId now : Nat) :
    Nat × Option Obj × List Task :=
  match runSerializer false d with
  | .error errs =>
    (400, some [("error", .str (String.intercalate "; " (errs.map (fun e => e.2)))),
                ("received_data", .raw d),
                ("message", .str "Task creation failed")], store)
  | .ok vd =>
    let t := buildTask newId now vd
    (201, some (serializeTask t ++ [("message", .str "Task created successfully!")]),
     store ++ [t])

/-! ### Seed data

The five-task seed of `TaskBusinessLogicAPITestCase.setUp`: statuses
{pending, in_progress, pending, completed, completed}, priorities
{high, high, medium, low, high}, created in this order. -/

def task1 : Task :=
  { id := 1, title := "High Priority 1", description := "",
    priority := .high, status := .pending,
    created_at := 1, updated_at := 1, due_date := none }

def task2 : Task :=
  { id := 2, title := "High Priority 2", description := "",
    priority := .high, status := .in_progress,
    created_at := 2, updated_at := 2, due_date := none }

def task3 : Task :=
  { id := 3, title := "Medium Priority", description := "",
    priority := .medium, status := .pending,
    created_at := 3, updated_at := 3, due_date := none }

def task4 : Task :=
  { id := 4, title := "Low Priority", description := "",
    priority := .low, status := .completed,
    created_at := 4, updated_at := 4, due_date := none }

def task5 : Task :=
  { id := 5, title := "Completed High", description := "",
    priority := .high, status := .completed,
    created_at := 5, updated_at := 5, due_date := none }

def seedStore : List Task := [task1, task2, task3, task4, task5]

/-! ### Theorems -/

/-- C2: `getStatistics` counts the whole store — `total` is the number of
records, each status field counts the records with that status, and
`high_priority` counts the records with priority `high` regardless of
status; on the five-task seed it returns
`{total := 5, pending := 2, in_progress := 1, completed := 2, high_priority := 3}`. -/
theorem getStatistics_counts :
    (∀ store : List Task,
      (get_task_statistics store).total = store.length ∧
      (get_task_statistics store).pending =
        (store.filter (fun t => t.status = Status.pending)).length ∧
      (get_task_statistics store).in_progress =
        (store.filter (fun t => t.status = Status.in_progress)).length ∧
      (get_task_statistics store).completed =
        (store.filter (fun t => t.status = Status.completed)).length ∧
      (get_task_statistics store).high_priority =
        (store.filter (fun t => t.priority = Priority.high)).length) ∧
    get_task_statistics seedStore =
      { total := 5, pending := 2, in_progress := 1, completed := 2,
        high_priority := 3 } := by
  constructor
  · intro store
    refine ⟨rfl, ?_, ?_, ?_, ?_⟩ <;>
      simp [get_task_statistics, List.countP_eq_length_filter]
  · decide

/-- C3: `getHighPriority` returns exactly the records with priority `high`
and status `pending` or `in_progress` (completed high-priority records are
excluded), sorted by `created_at` descending; on the five-task seed the
result is the two matching records, newest first. -/
theorem getHighPriority_spec :
    (∀ store : List Task,
      (get_high_priority_tasks store).Perm
        (store.filter (fun t => t.priority = Priority.high ∧
          (t.status = Status.pending ∨ t.status = Status.in_progress))) ∧
      List.Sorted createdDesc (get_high_priority_tasks store)) ∧
    get_high_priority_tasks seedStore = [task2, task1] := by
  refine ⟨fun store => ⟨?_, ?_⟩, by decide⟩
  · have hperm := List.perm_insertionSort createdDesc
      (store.filter (fun t => t.priority = Priority.high ∧
        t.status ∈ [Status.pending, Status.in_progress]))
    have hfe : store.filter (fun t => decide (t.priority = Priority.high ∧
          t.status ∈ [Status.pending, Status.in_progress])) =
        store.filter (fun t => decide (t.priority = Priority.high ∧
          (t.status = Status.pending ∨ t.status = Status.in_progress))) := by
      refine List.filter_congr (fun t _ => ?_)
      simp [List.mem_cons]
    exact hperm.trans (by rw [hfe])
  · exact List.sorted_insertionSort createdDesc _

/-! ### Stripping lemmas -/

theorem dropWhile_head_false {p : Char → Bool} {c : Char} {t : List Char}
    (h : (c :: t).dropWhile p = c :: t) : p c = false := by
  cases hc : p c
  · rfl
  · exfalso
    rw [List.dropWhile_cons, if_pos hc] at h
    have hle := (List.dropWhile_sublist (l := t) p).length_le
    rw [h] at hle
    simp at hle

theorem pyStripList_idem (l : List Char) :
    pyStripList (pyStripList l) = pyStripList l := by
  have h1 : (pyStripList l).dropWhile isPySpace = pyStripList l := by
    rcases hre : pyStripList l with _ | ⟨c, t⟩
    · rfl
    · obtain ⟨s, hs⟩ := List.rdropWhile_prefix isPySpace (l.dropWhile isPySpace)
      rw [show (l.dropWhile isPySpace).rdropWhile isPySpace = pyStripList l from rfl,
        hre] at hs
      have hd := List.dropWhile_idempotent isPySpace l
      rw [← hs] at hd
      have hc : isPySpace c = false := dropWhile_head_false hd
      rw [List.dropWhile_cons, hc]
      simp
  show ((pyStripList l).dropWhile isPySpace).rdropWhile isPySpace = pyStripList l
  rw [h1]
  exact List.rdropWhile_idempotent isPySpace (l.dropWhile isPySpace)

theorem pyStrip_idem (s : String) : pyStrip (pyStrip s) = pyStrip s := by
  show (⟨pyStripList (pyStripList s.data)⟩ : String) = ⟨pyStripList s.data⟩
  rw [pyStripList_idem]

theorem pyStrip_eq_empty_iff (s : String) :
    pyStrip s = "" ↔ pyStripList s.data = [] := by
  constructor
  · intro h
    have := congrArg String.data h
    simpa using this
  · intro h
    show (⟨pyStripList s.data⟩ : String) = ""
    rw [h]

/-- C7: `validate_title` succeeds exactly when the title is neither empty nor
whitespace-only, and on success returns the input stripped of surrounding
whitespace — a value that is itself never empty or whitespace-only. -/
theorem validate_title_spec :
    ∀ v : String,
      ((validate_title v).isOk ↔ ¬ pyStrip v = "") ∧
      (∀ r : String, validate_title v = .ok r →
        r = pyStrip v ∧ ¬ r = "" ∧ ¬ pyStrip r = "") := by
  intro v
  have hve : v = "" → pyStrip v = "" := by
    intro h
    subst h
    rfl
  by_cases hps : pyStrip v = ""
  · have hb : v = "" ∨ pyStrip v = "" := Or.inr hps
    unfold validate_title
    rw [if_pos hb]
    refine ⟨by simp [Except.isOk, Except.toBool, hps], ?_⟩
    intro r hr
    exact Except.noConfusion hr
  · have hb : ¬ (v = "" ∨ pyStrip v = "") := fun h => hps (h.elim hve id)
    unfold validate_title
    rw [if_neg hb]
    refine ⟨by simp [Except.isOk, Except.toBool, hps], ?_⟩
    intro r hr
    have hrv : r = pyStrip v := by
      injection hr with h
      exact h.symm
    refine ⟨hrv, ?_, ?_⟩
    · rw [hrv]
      exact hps
    · rw [hrv, pyStrip_idem]
      exact hps

/-- Witness for C7 at the concrete title `"  hi  "`. -/
theorem validate_title_spec_witness :
    "hi" = pyStrip "  hi  " ∧ ¬ ("hi" : String) = "" ∧ ¬ pyStrip "hi" = "" :=
  (validate_title_spec "  hi  ").2 "hi" rfl

/-! ### Delete (C6) -/

/-- C6 counterexample: deleting the only record of a one-task store answers
204, but the response body is `{'message': 'Task deleted successfully'}`,
not the empty body the claim states. -/
theorem destroy_body_counterexample :
    (destroy_view [task1] 1).1 = 204 ∧
    ¬ (destroy_view [task1] 1).2.1 = none ∧
    (destroy_view [task1] 1).2.1 =
      some [("message", FieldVal.str "Task deleted successfully")] := by
  refine ⟨rfl, ?_, rfl⟩
  intro h
  rw [show (destroy_view [task1] 1).2.1 =
    some [("message", FieldVal.str "Task deleted successfully")] from rfl] at h
  exact Option.noConfusion h

/-- C6 (amended): delete on an existing id answers 204 — with the body
`{'message': 'Task deleted successfully'}` rather than an empty one — and
removes the record, after which retrieve on the id answers 404 and a repeated
delete answers 404 leaving the store unchanged; every other record survives.
Delete on an absent id answers 404 and changes nothing. -/
theorem destroy_semantics :
    ∀ (store : List Task) (tid : Nat),
      (∀ t, find_task store tid = some t →
        (destroy_view store tid).1 = 204 ∧
        (destroy_view store tid).2.1 =
          some [("message", FieldVal.str "Task deleted successfully")] ∧
        find_task (destroy_view store tid).2.2 tid = none ∧
        (retrieve_view (destroy_view store tid).2.2 tid).1 = 404 ∧
        destroy_view (destroy_view store tid).2.2 tid =
          (404, some notFoundBody, (destroy_view store tid).2.2) ∧
        (∀ u ∈ store, ¬ u.id = tid → u ∈ (destroy_view store tid).2.2)) ∧
      (find_task store tid = none →
        destroy_view store tid = (404, some notFoundBody, store)) := by
  intro store tid
  constructor
  · intro t ht
    have hd : destroy_view store tid =
        (204, some [("message", FieldVal.str "Task deleted successfully")],
         store.filter (fun u => ¬ u.id = tid)) := by
      unfold destroy_view
      rw [ht]
    have hfn : find_task (store.filter (fun u => ¬ u.id = tid)) tid = none := by
      unfold find_task
      rw [List.find?_eq_none]
      intro x hx
      have hm := (List.mem_filter.mp hx).2
      simp only [decide_eq_true_eq] at hm ⊢
      exact hm
    rw [hd]
    refine ⟨rfl, rfl, hfn, ?_, ?_, ?_⟩
    · unfold retrieve_view
      rw [hfn]
    · unfold destroy_view
      rw [hfn]
    · intro u hu hne
      exact List.mem_filter.mpr ⟨hu, by simpa using hne⟩
  · intro hnone
    unfold destroy_view
    rw [hnone]

/-- Witness for C6 on the one-task store. -/
theorem destroy_semantics_witness :
    (destroy_view [task1] 1).1 = 204 ∧
    find_task (destroy_view [task1] 1).2.2 1 = none ∧
    (retrieve_view (destroy_view [task1] 1).2.2 1).1 = 404 := by
  have h := (destroy_semantics [task1] 1).1 task1 rfl
  exact ⟨h.1, h.2.2.1, h.2.2.2.1⟩

/-! ### List filtering (C4) -/

/-- The records a supplied pair of query parameters keeps: an absent
parameter matches everything, and so does the empty string, which the views'
truthiness test treats as absent. -/
def filterMatch (fval : Option String) (v : String) : Prop :=
  match fval with
  | none => True
  | some s => s = "" ∨ v = s

instance (fval : Option String) (v : String) : Decidable (filterMatch fval v) := by
  unfold filterMatch
  cases fval <;> infer_instance

theorem status_toStr_mem (st : Status) :
    validStatuses.contains st.toStr = true := by
  cases st <;> rfl

theorem priority_toStr_mem (p : Priority) :
    validPriorities.contains p.toStr = true := by
  cases p <;> rfl

theorem applyFilter_eq (fval : Option String) (get : Task → String)
    (ts : List Task) :
    applyFilter fval get ts = ts.filter (fun t => filterMatch fval (get t)) := by
  cases fval with
  | none =>
    simp [applyFilter, filterMatch]
  | some s =>
    by_cases hs : s = ""
    · subst hs
      simp [applyFilter, filterMatch]
    · rw [show applyFilter (some s) get ts
        = if s = "" then ts else ts.filter (fun t => get t = s) from rfl,
        if_neg hs]
      refine List.filter_congr (fun t _ => ?_)
      simp [filterMatch, hs]

/-- C4 counterexample: the empty string is outside the status enum, yet
supplying it as the status filter returns the whole one-task store instead of
the empty result the claim requires — the views' `if status_filter:` check
treats it as no filter at all. -/
theorem list_empty_filter_counterexample :
    validStatuses.contains "" = false ∧
    ¬ list_view [task1] (some "") none = [] := by
  refine ⟨rfl, ?_⟩
  intro h
  rw [show list_view [task1] (some "") none = [task1] from rfl] at h
  exact List.noConfusion h

/-- C4 (amended): `list` returns exactly the records matching all supplied
filters (AND when both are given), ordered by `created_at` descending; with
no filters it returns all records; a supplied *non-empty* filter value
outside the defined enums yields an empty result, while an empty-string
filter value is treated as if the filter were absent. -/
theorem list_view_spec :
    ∀ (store : List Task) (sF pF : Option String),
      (list_view store sF pF).Perm
        (store.filter (fun t =>
          filterMatch sF t.status.toStr ∧ filterMatch pF t.priority.toStr)) ∧
      List.Sorted createdDesc (list_view store sF pF) ∧
      (sF = none → pF = none → (list_view store sF pF).Perm store) ∧
      (∀ s, sF = some s → ¬ s = "" → validStatuses.contains s = false →
        list_view store sF pF = []) ∧
      (∀ s, pF = some s → ¬ s = "" → validPriorities.contains s = false →
        list_view store sF pF = []) := by
  intro store sF pF
  have hinner :
      applyFilter pF (fun t => t.priority.toStr)
        (applyFilter sF (fun t => t.status.toStr) store) =
      store.filter (fun t =>
        filterMatch sF t.status.toStr ∧ filterMatch pF t.priority.toStr) := by
    rw [applyFilter_eq, applyFilter_eq, List.filter_filter]
    refine List.filter_congr (fun t _ => ?_)
    simp [Bool.and_comm]
  have hsorted : List.Sorted createdDesc (get_queryset store sF pF) :=
    List.sorted_insertionSort createdDesc _
  have hqperm : (get_queryset store sF pF).Perm
      (store.filter (fun t =>
        filterMatch sF t.status.toStr ∧ filterMatch pF t.priority.toStr)) := by
    unfold get_queryset sortByCreatedAtDesc
    rw [← hinner]
    exact List.perm_insertionSort createdDesc _
  have hlv : list_view store sF pF = get_queryset store sF pF := by
    unfold list_view
    rw [applyFilter_eq, applyFilter_eq, List.filter_filter]
    rw [List.filter_eq_self.mpr]
    intro a ha
    have ham := hqperm.mem_iff.mp ha
    have := (List.mem_filter.mp ham).2
    simp only [decide_eq_true_eq] at this
    simp [this.1, this.2]
  have hperm := hlv ▸ hqperm
  refine ⟨hperm, hlv ▸ hsorted, ?_, ?_, ?_⟩
  · intro hs hp
    subst hs
    subst hp
    refine hperm.trans ?_
    rw [List.filter_eq_self.mpr]
    intro a _
    simp [filterMatch]
  · intro s hs hne hmem
    subst hs
    have heq : store.filter (fun t => decide (filterMatch (some s) t.status.toStr ∧
        filterMatch pF t.priority.toStr)) = [] := by
      rw [List.filter_eq_nil_iff]
      intro t _
      simp only [decide_eq_true_eq]
      rintro ⟨h1, -⟩
      rcases h1 with h1 | h1
      · exact hne h1
      · rw [← h1] at hmem
        rw [status_toStr_mem t.status] at hmem
        exact Bool.noConfusion hmem
    exact List.perm_nil.mp (heq ▸ hperm)
  · intro s hs hne hmem
    subst hs
    have heq : store.filter (fun t => decide (filterMatch sF t.status.toStr ∧
        filterMatch (some s) t.priority.toStr)) = [] := by
      rw [List.filter_eq_nil_iff]
      intro t _
      simp only [decide_eq_true_eq]
      rintro ⟨-, h1⟩
      rcases h1 with h1 | h1
      · exact hne h1
      · rw [← h1] at hmem
        rw [priority_toStr_mem t.priority] at hmem
        exact Bool.noConfusion hmem
    exact List.perm_nil.mp (heq ▸ hperm)

/-- Witness for C4: an unknown non-empty status value over the five-task
seed yields the empty list. -/
theorem list_view_spec_witness :
    list_view seedStore (some "nonsense") none = [] :=
  (list_view_spec seedStore (some "nonsense") none).2.2.2.1 "nonsense" rfl
    (by decide) (by decide)

/-! ### Serializer validation modes (C5) -/

theorem fieldRes_false_isOk (fld : Option α) (valf : α → Except String β) :
    (fieldRes false fld valf).isOk = true ↔
      ∃ v, fld = some v ∧ (valf v).isOk = true := by
  cases fld with
  | none => simp [fieldRes, Except.isOk, Except.toBool]
  | some v =>
    cases hv : valf v with
    | error e => simp [fieldRes, hv, Except.isOk, Except.toBool, Except.map]
    | ok b => simp [fieldRes, hv, Except.isOk, Except.toBool, Except.map]

theorem fieldRes_true_isOk (fld : Option α) (valf : α → Except String β) :
    (fieldRes true fld valf).isOk = true ↔
      ∀ v, fld = some v → (valf v).isOk = true := by
  cases fld with
  | none => simp [fieldRes, Except.isOk, Except.toBool]
  | some v =>
    cases hv : valf v with
    | error e => simp [fieldRes, hv, Except.isOk, Except.toBool, Except.map]
    | ok b => simp [fieldRes, hv, Except.isOk, Except.toBool, Except.map]

theorem runSerializer_ok_iff (pf : Bool) (d : TaskData) :
    (∃ vd, runSerializer pf d = .ok vd) ↔
      ((titleRes pf d).isOk = true ∧ (priorityRes pf d).isOk = true ∧
       (statusRes pf d).isOk = true) := by
  rcases ht : titleRes pf d with e1 | t <;>
    rcases hp : priorityRes pf d with e2 | p <;>
    rcases hs : statusRes pf d with e3 | s <;>
    simp [runSerializer, ht, hp, hs, Except.isOk, Except.toBool]

theorem runSerializer_ok_fields (pf : Bool) (d : TaskData) (vd : ValidatedData)
    (h : runSerializer pf d = .ok vd) :
    titleRes pf d = .ok vd.title ∧ priorityRes pf d = .ok vd.priority ∧
    statusRes pf d = .ok vd.status ∧ vd.description = d.description ∧
    vd.due_date = d.due_date := by
  rcases ht : titleRes pf d with e1 | t <;>
    rcases hp : priorityRes pf d with e2 | p <;>
    rcases hs : statusRes pf d with e3 | s <;>
    simp [runSerializer, ht, hp, hs] at h
  subst h
  simp [ht, hp, hs]

/-- C5: a full update (`partialFlag = false`) validates successfully exactly
when all required fields — title, priority, status — are supplied and valid;
a partial update (`partialFlag = true`) validates exactly the supplied
fields, and saving leaves every unsupplied field at its prior value; the
service-layer `update_task` is the partial path: it fails with not-found on
an absent id and otherwise behaves as the partial serializer run. -/
theorem update_validation_modes :
    (∀ d : TaskData, (∃ vd, runSerializer false d = .ok vd) ↔
      ((∃ v, d.title = some v ∧ (titleField v).isOk = true) ∧
       (∃ v, d.priority = some v ∧ (validate_priority v).isOk = true) ∧
       (∃ v, d.status = some v ∧ (validate_status v).isOk = true))) ∧
    (∀ d : TaskData, (∃ vd, runSerializer true d = .ok vd) ↔
      ((∀ v, d.title = some v → (titleField v).isOk = true) ∧
       (∀ v, d.priority = some v → (validate_priority v).isOk = true) ∧
       (∀ v, d.status = some v → (validate_status v).isOk = true))) ∧
    (∀ (d : TaskData) (vd : ValidatedData) (old : Task) (now : Nat),
      runSerializer true d = .ok vd →
      (d.title = none → (serializerSave old vd now).title = old.title) ∧
      (d.description = none →
        (serializerSave old vd now).description = old.description) ∧
      (d.priority = none → (serializerSave old vd now).priority = old.priority) ∧
      (d.status = none → (serializerSave old vd now).status = old.status) ∧
      (d.due_date = none → (serializerSave old vd now).due_date = old.due_date) ∧
      (serializerSave old vd now).id = old.id ∧
      (serializerSave old vd now).created_at = old.created_at ∧
      (serializerSave old vd now).updated_at = now) ∧
    (∀ (store : List Task) (tid : Nat) (d : TaskData) (now : Nat),
      find_task store tid = none →
      update_task store tid d now = .error (.notFound tid)) ∧
    (∀ (store : List Task) (tid : Nat) (d : TaskData) (now : Nat) (t : Task),
      find_task store tid = some t →
      update_task store tid d now =
        (match runSerializer true d with
         | .error e => .error (.invalid e)
         | .ok vd => .ok (serializerSave t vd now,
             store.map (fun u => if u.id = tid then serializerSave t vd now else u)))) := by
  refine ⟨?_, ?_, ?_, ?_, ?_⟩
  · intro d
    rw [runSerializer_ok_iff]
    rw [show titleRes false d = fieldRes false d.title titleField from rfl,
      show priorityRes false d = fieldRes false d.priority validate_priority from rfl,
      show statusRes false d = fieldRes false d.status validate_status from rfl,
      fieldRes_false_isOk, fieldRes_false_isOk, fieldRes_false_isOk]
  · intro d
    rw [runSerializer_ok_iff]
    rw [show titleRes true d = fieldRes true d.title titleField from rfl,
      show priorityRes true d = fieldRes true d.priority validate_priority from rfl,
      show statusRes true d = fieldRes true d.status validate_status from rfl,
      fieldRes_true_isOk, fieldRes_true_isOk, fieldRes_true_isOk]
  · intro d vd old now h
    obtain ⟨ht, hp, hs, hde, hdu⟩ := runSerializer_ok_fields true d vd h
    refine ⟨?_, ?_, ?_, ?_, ?_, rfl, rfl, rfl⟩
    · intro hn
      rw [show titleRes true d = fieldRes true d.title titleField from rfl, hn] at ht
      have : some (none : Option String) = some vd.title := by
        simpa [fieldRes] using ht
      have hvt : vd.title = none := (Option.some_inj.mp this).symm
      simp [serializerSave, hvt]
    · intro hn
      rw [hn] at hde
      simp [serializerSave, hde]
    · intro hn
      rw [show priorityRes true d = fieldRes true d.priority validate_priority from rfl,
        hn] at hp
      have : some (none : Option Priority) = some vd.priority := by
        simpa [fieldRes] using hp
      have hvp : vd.priority = none := (Option.some_inj.mp this).symm
      simp [serializerSave, hvp]
    · intro hn
      rw [show statusRes true d = fieldRes true d.status validate_status from rfl,
        hn] at hs
      have : some (none : Option Status) = some vd.status := by
        simpa [fieldRes] using hs
      have hvs : vd.status = none := (Option.some_inj.mp this).symm
      simp [serializerSave, hvs]
    · intro hn
      rw [hn] at hdu
      simp [serializerSave, hdu]
  · intro store tid d now hnone
    unfold update_task
    rw [hnone]
  · intro store tid d now t ht
    unfold update_task
    rw [ht]

/-- Witness for C5: a PATCH supplying only `status` keeps the title. -/
theorem update_validation_modes_witness :
    (serializerSave task1 { status := some Status.in_progress } 7).title =
      task1.title :=
  ((update_validation_modes.2.2.1 { status := some "in_progress" }
      { status := some Status.in_progress } task1 7 rfl).1) rfl

/-! ### Partial-update frame (C8) -/

/-- The task created in `TaskAPITestCase.setUp` for update/delete tests. -/
def existingTask : Task :=
  { id := 10, title := "Existing Task", description := "Existing Description",
    priority := .medium, status := .pending,
    created_at := 1, updated_at := 1, due_date := none }

theorem find_task_id {store : List Task} {tid : Nat} {t : Task}
    (h : find_task store tid = some t) : t.id = tid := by
  have := List.find?_some h
  simpa using this

theorem find_task_map_update (store : List Task) (tid : Nat) (upd : Task)
    (hid : upd.id = tid) (h : ¬ find_task store tid = none) :
    find_task (store.map (fun u => if u.id = tid then upd else u)) tid =
      some upd := by
  induction store with
  | nil => exact absurd rfl h
  | cons u us ih =>
    by_cases hu : u.id = tid
    · simp [find_task, List.find?_cons, hu, hid]
    · have h2 : ¬ find_task us tid = none := by
        simp only [find_task, List.find?_cons] at h ⊢
        simpa [hu] using h
      have := ih h2
      simp only [find_task, List.map_cons, List.find?_cons] at this ⊢
      simpa [hu] using this

/-- C8: an update response carries the saved record, the store afterwards
holds it under the same id, `id` and `created_at` are preserved by every
update (full or partial), and every field the request leaves unsupplied
keeps its prior value in the saved record; concretely, PATCH
`{status := "in_progress"}` on the seeded `'Existing Task'` yields a record
whose title is still `"Existing Task"` and whose status is
`"in_progress"`. -/
theorem partial_update_frame :
    (∀ (store : List Task) (tid : Nat) (d : TaskData) (now : Nat) (t : Task)
        (vd : ValidatedData) (pf : Bool),
      find_task store tid = some t → runSerializer pf d = .ok vd →
      (update_view store tid d now pf).1 = 200 ∧
      (update_view store tid d now pf).2.1 =
        some (serializeTask (serializerSave t vd now)) ∧
      find_task (update_view store tid d now pf).2.2 tid =
        some (serializerSave t vd now) ∧
      (serializerSave t vd now).id = t.id ∧
      (serializerSave t vd now).created_at = t.created_at ∧
      (d.title = none → (serializerSave t vd now).title = t.title) ∧
      (d.description = none →
        (serializerSave t vd now).description = t.description) ∧
      (d.priority = none → (serializerSave t vd now).priority = t.priority) ∧
      (d.status = none → (serializerSave t vd now).status = t.status) ∧
      (d.due_date = none → (serializerSave t vd now).due_date = t.due_date)) ∧
    (update_view [existingTask] 10 { status := some "in_progress" } 2 true).2.1 =
      some (serializeTask
        { existingTask with status := Status.in_progress, updated_at := 2 }) ∧
    ({ existingTask with status := Status.in_progress, updated_at := 2 }).title =
      "Existing Task" ∧
    ({ existingTask with status := Status.in_progress, updated_at := 2 }).status.toStr =
      "in_progress" := by
  refine ⟨?_, rfl, rfl, rfl⟩
  intro store tid d now t vd pf hfind hok
  have hview : update_view store tid d now pf =
      (200, some (serializeTask (serializerSave t vd now)),
       store.map (fun u => if u.id = tid then serializerSave t vd now else u)) := by
    unfold update_view
    rw [hfind, hok]
  obtain ⟨ht, hp, hs, hde, hdu⟩ := runSerializer_ok_fields pf d vd hok
  rw [hview]
  refine ⟨rfl, rfl, ?_, rfl, rfl, ?_, ?_, ?_, ?_, ?_⟩
  · refine find_task_map_update store tid _ ?_ ?_
    · simp [serializerSave, find_task_id hfind]
    · rw [hfind]
      simp
  · intro hn
    rw [show titleRes pf d = fieldRes pf d.title titleField from rfl, hn] at ht
    cases pf with
    | false => exact absurd ht (by simp [fieldRes])
    | true =>
      have hvt : vd.title = none := by
        have := ht.symm
        simpa [fieldRes] using this
      simp [serializerSave, hvt]
  · intro hn
    rw [hn] at hde
    simp [serializerSave, hde]
  · intro hn
    rw [show priorityRes pf d = fieldRes pf d.priority validate_priority from rfl,
      hn] at hp
    cases pf with
    | false => exact absurd hp (by simp [fieldRes])
    | true =>
      have hvp : vd.priority = none := by
        have := hp.symm
        simpa [fieldRes] using this
      simp [serializerSave, hvp]
  · intro hn
    rw [show statusRes pf d = fieldRes pf d.status validate_status from rfl,
      hn] at hs
    cases pf with
    | false => exact absurd hs (by simp [fieldRes])
    | true =>
      have hvs : vd.status = none := by
        have := hs.symm
        simpa [fieldRes] using this
      simp [serializerSave, hvs]
  · intro hn
    rw [hn] at hdu
    simp [serializerSave, hdu]

/-- Witness for C8 on the seeded `'Existing Task'`. -/
theorem partial_update_frame_witness :
    (update_view [existingTask] 10 { status := some "in_progress" } 2 true).1 = 200 ∧
    (serializerSave existingTask { status := some Status.in_progress } 2).title =
      existingTask.title := by
  have h := partial_update_frame.1 [existingTask] 10
    { status := some "in_progress" } 2 existingTask
    { status := some Status.in_progress } true rfl rfl
  exact ⟨h.1, h.2.2.2.2.2.1 rfl⟩

/-! ### Bulk update (C1, C10) -/

theorem mapM_ok_of_ok {ε α β : Type} (g : α → β) (l : List α) :
    l.mapM (fun x => (Except.ok (g x) : Except ε β)) = .ok (l.map g) := by
  induction l with
  | nil => rfl
  | cons x xs ih =>
    rw [List.mapM_cons, ih]
    rfl

theorem mapM_error_of_ne_nil {ε α β : Type} {f : α → Except ε β} {e : ε}
    (hf : ∀ x, f x = .error e) (l : List α) (hl : ¬ l = []) :
    l.mapM f = .error e := by
  cases l with
  | nil => exact absurd rfl hl
  | cons x xs =>
    rw [List.mapM_cons, hf x]
    rfl

/-- Shared evaluation of the bulk-update view when the update data
validates. -/
theorem bulk_update_view_ok (store : List Task) (ids : List Nat) (d : TaskData)
    (now : Nat) (vd : ValidatedData) (hok : runSerializer true d = .ok vd) :
    bulk_update_view store (some ids) d now =
      (200, some [("updated_count",
              FieldVal.nat (store.filter (fun t => ids.contains t.id)).length),
            ("tasks", FieldVal.objList
              ((store.filter (fun t => ids.contains t.id)).map
                (fun t => serializeTask (serializerSave t vd now))))],
       store.map (updateIfTarget ids d now)) := by
  have hmap : (store.filter (fun t => ids.contains t.id)).mapM
      (fun t => (runSerializer true d).map
        (fun vd => serializerSave t vd now)) =
      .ok ((store.filter (fun t => ids.contains t.id)).map
        (fun t => serializerSave t vd now)) := by
    have hfun : (fun t => (runSerializer true d).map
        (fun vd => serializerSave t vd now)) =
        (fun t => (Except.ok (serializerSave t vd now) :
          Except (List (String × String)) Task)) := by
      funext t
      rw [hok]
      rfl
    rw [hfun, mapM_ok_of_ok]
  have hbulk : bulk_update_tasks store ids d now =
      .ok ((store.filter (fun t => ids.contains t.id)).map
            (fun t => serializerSave t vd now),
           store.map (updateIfTarget ids d now)) := by
    unfold bulk_update_tasks
    rw [hmap]
  unfold bulk_update_view
  rw [show (some ids).getD [] = ids from rfl, hbulk]
  simp [List.length_map, List.map_map]

/-- C1: `bulkUpdate` applies the fields as a partial update to every record
whose id is in the list.  When the fields fail validation and at least one
record is targeted, the whole request answers 400 and the store is unchanged
(the atomic transaction rolls back — no partial success is observable).  On
success the response is 200 with the updated count and records, every
targeted record is saved with the partial update, every other record is
untouched.  An id matching no record is skipped silently: adding it changes
nothing about the outcome. -/
theorem bulk_update_atomic :
    (∀ (store : List Task) (ids : List Nat) (d : TaskData) (now : Nat)
        (e : List (String × String)),
      runSerializer true d = .error e →
      (∃ t ∈ store, ids.contains t.id = true) →
      (bulk_update_view store (some ids) d now).1 = 400 ∧
      (bulk_update_view store (some ids) d now).2.2 = store) ∧
    (∀ (store : List Task) (ids : List Nat) (d : TaskData) (now : Nat)
        (vd : ValidatedData),
      runSerializer true d = .ok vd →
      (bulk_update_view store (some ids) d now).1 = 200 ∧
      (bulk_update_view store (some ids) d now).2.1 =
        some [("updated_count",
                FieldVal.nat (store.filter (fun t => ids.contains t.id)).length),
              ("tasks", FieldVal.objList
                ((store.filter (fun t => ids.contains t.id)).map
                  (fun t => serializeTask (serializerSave t vd now))))] ∧
      (bulk_update_view store (some ids) d now).2.2 =
        store.map (fun t =>
          if ids.contains t.id then serializerSave t vd now else t)) ∧
    (∀ (store : List Task) (ids : List Nat) (d : TaskData) (now : Nat)
        (extra : Nat),
      (∀ t ∈ store, ¬ t.id = extra) →
      bulk_update_view store (some (extra :: ids)) d now =
        bulk_update_view store (some ids) d now) := by
  refine ⟨?_, ?_, ?_⟩
  · intro store ids d now e herr ⟨t, htm, htc⟩
    have htargets : ¬ store.filter (fun t => ids.contains t.id) = [] :=
      List.ne_nil_of_mem (List.mem_filter.mpr ⟨htm, by simpa using htc⟩)
    have hmap : (store.filter (fun t => ids.contains t.id)).mapM
        (fun t => (runSerializer true d).map
          (fun vd => serializerSave t vd now)) = .error e := by
      refine mapM_error_of_ne_nil (fun x => ?_) _ htargets
      rw [herr]
      rfl
    have hbulk : bulk_update_tasks store ids d now = .error e := by
      unfold bulk_update_tasks
      rw [hmap]
    have hview : bulk_update_view store (some ids) d now =
        (400, some [("error",
          FieldVal.str (String.intercalate "; " (e.map (fun x => x.2))))],
         store) := by
      unfold bulk_update_view
      rw [show (some ids).getD [] = ids from rfl, hbulk]
    rw [hview]
    exact ⟨rfl, rfl⟩
  · intro store ids d now vd hok
    have hupd : store.map (updateIfTarget ids d now) =
        store.map (fun t =>
          if ids.contains t.id then serializerSave t vd now else t) := by
      refine List.map_congr_left (fun t _ => ?_)
      unfold updateIfTarget
      by_cases hc : ids.contains t.id
      · rw [if_pos hc, if_pos hc, hok]
      · rw [if_neg hc, if_neg hc]
    rw [bulk_update_view_ok store ids d now vd hok, hupd]
    exact ⟨rfl, rfl, rfl⟩
  · intro store ids d now extra hnone
    have hfe : store.filter (fun t => (extra :: ids).contains t.id) =
        store.filter (fun t => ids.contains t.id) := by
      refine List.filter_congr (fun t htm => ?_)
      have := hnone t htm
      simp [List.contains_cons, this]
    have hmape : store.map (updateIfTarget (extra :: ids) d now) =
        store.map (updateIfTarget ids d now) := by
      refine List.map_congr_left (fun t htm => ?_)
      have := hnone t htm
      unfold updateIfTarget
      simp [List.contains_cons, this]
    unfold bulk_update_view bulk_update_tasks
    rw [show (some (extra :: ids)).getD [] = extra :: ids from rfl,
      show (some ids).getD [] = ids from rfl, hfe, hmape]

/-- Witness for C1: bulk-updating seed tasks 1 and 3 to completed succeeds
with two records updated. -/
theorem bulk_update_atomic_witness :
    (bulk_update_view seedStore (some [1, 3]) { status := some "completed" } 9).1
      = 200 :=
  (bulk_update_atomic.2.1 seedStore [1, 3] { status := some "completed" } 9
    { status := some Status.completed } rfl).1

/-- C10: a bulk-update request whose body lacks the `task_ids` key — the
handler defaults it to `[]` — or supplies an empty list succeeds with 200 and
body `{updated_count: 0, tasks: []}`, and no record in the store changes,
whatever the other supplied fields are. -/
theorem bulk_update_empty_ids :
    ∀ (store : List Task) (d : TaskData) (now : Nat),
      bulk_update_view store none d now =
        (200, some [("updated_count", FieldVal.nat 0),
                    ("tasks", FieldVal.objList [])], store) ∧
      bulk_update_view store (some []) d now =
        (200, some [("updated_count", FieldVal.nat 0),
                    ("tasks", FieldVal.objList [])], store) := by
  intro store d now
  have key : bulk_update_tasks store [] d now = .ok ([], store) := by
    unfold bulk_update_tasks
    have h1 : store.filter (fun t => List.contains [] t.id) = [] := by
      simp
    rw [h1]
    rw [show (([] : List Task).mapM (fun t => (runSerializer true d).map
      (fun vd => serializerSave t vd now))) =
      (Except.ok [] : Except (List (String × String)) (List Task)) from rfl]
    have h2 : store.map (updateIfTarget [] d now) = store := by
      refine List.map_id'' (fun t => ?_) store
      unfold updateIfTarget
      simp
    rw [h2]
  constructor
  · unfold bulk_update_view
    rw [show (none : Option (List Nat)).getD [] = [] from rfl, key]
    rfl
  · unfold bulk_update_view
    rw [show (some ([] : List Nat)).getD [] = [] from rfl, key]
    rfl

/-! ### Response field sets (C9) -/

/-- A valid creation request body. -/
def createDataA : TaskData :=
  { title := some "Task A", priority := some "high", status := some "pending" }

/-- C9 counterexample: the `simple_create_task` success response is the task
object with a ninth key `message` appended, so the claimed exact eight-field
set fails for the create response through that handler. -/
theorem response_fields_counterexample :
    ((simple_create_task [] createDataA 1 0).2.1.map
      (fun b => b.map Prod.fst)) = some (taskFields ++ ["message"]) ∧
    ¬ taskFields ++ ["message"] = taskFields := by
  exact ⟨rfl, by decide⟩

/-- C9 (amended): every Task object serialized through `TaskSerializer` — as
returned by list, retrieve, the viewset create, update and partial update,
high_priority, and bulk_update — carries exactly the eight fields
`{id, title, description, priority, status, created_at, updated_at,
due_date}`; the `simple_create_task` success response instead carries those
eight plus an extra `message` key. -/
theorem response_fields :
    (∀ t : Task, (serializeTask t).map Prod.fst = taskFields) ∧
    (∀ (store : List Task) (sF pF : Option String) (b : Obj),
      b ∈ (list_view store sF pF).map serializeTask →
      b.map Prod.fst = taskFields) ∧
    (∀ (store : List Task) (tid : Nat) (t : Task),
      find_task store tid = some t →
      (retrieve_view store tid).2 = some (serializeTask t)) ∧
    (∀ (store : List Task) (d : TaskData) (newId now : Nat)
        (vd : ValidatedData), runSerializer false d = .ok vd →
      (create_view store d newId now).2.1 =
        some (serializeTask (buildTask newId now vd))) ∧
    (∀ (store : List Task) (tid : Nat) (d : TaskData) (now : Nat) (pf : Bool)
        (t : Task) (vd : ValidatedData),
      find_task store tid = some t → runSerializer pf d = .ok vd →
      (update_view store tid d now pf).2.1 =
        some (serializeTask (serializerSave t vd now))) ∧
    (∀ (store : List Task) (b : Obj),
      b ∈ (get_high_priority_tasks store).map serializeTask →
      b.map Prod.fst = taskFields) ∧
    (∀ (store : List Task) (ids : List Nat) (d : TaskData) (now : Nat)
        (vd : ValidatedData), runSerializer true d = .ok vd →
      (bulk_update_view store (some ids) d now).2.1 =
        some [("updated_count",
                FieldVal.nat (store.filter (fun t => ids.contains t.id)).length),
              ("tasks", FieldVal.objList
                ((store.filter (fun t => ids.contains t.id)).map
                  (fun t => serializeTask (serializerSave t vd now))))]) ∧
    (∀ (store : List Task) (d : TaskData) (newId now : Nat)
        (vd : ValidatedData), runSerializer false d = .ok vd →
      ((simple_create_task store d newId now).2.1.map
        (fun b => b.map Prod.fst)) = some (taskFields ++ ["message"])) := by
  have hk : ∀ t : Task, (serializeTask t).map Prod.fst = taskFields :=
    fun t => rfl
  refine ⟨hk, ?_, ?_, ?_, ?_, ?_, ?_, ?_⟩
  · intro store sF pF b hb
    obtain ⟨t, -, rfl⟩ := List.mem_map.mp hb
    exact hk t
  · intro store tid t hfind
    unfold retrieve_view
    rw [hfind]
  · intro store d newId now vd hok
    unfold create_view
    rw [hok]
  · intro store tid d now pf t vd hfind hok
    unfold update_view
    rw [hfind, hok]
  · intro store b hb
    obtain ⟨t, -, rfl⟩ := List.mem_map.mp hb
    exact hk t
  · intro store ids d now vd hok
    rw [bulk_update_view_ok store ids d now vd hok]
  · intro store d newId now vd hok
    unfold simple_create_task
    rw [hok]
    show some ((serializeTask (buildTask newId now vd) ++
      [("message", FieldVal.str "Task created successfully!")]).map Prod.fst) = _
    rw [List.map_append, hk]
    rfl

/-- Witness for C9: retrieving the seeded task answers with its serialized
eight-field object. -/
theorem response_fields_witness :
    (retrieve_view [task1] 1).2 = some (serializeTask task1) :=
  response_fields.2.2.1 [task1] 1 task1 rfl

end Taskapp
